import Mathlib

/-!
Shallow embedding of `src/bindings/web/rune/src/Tensor.ts`: a typed,
zero-copy view over a raw byte buffer, gated by the declared element kind
of a shape descriptor.

The byte buffer (`ArrayBuffer`) is modelled as a function `Nat → Nat`
giving the byte stored at each position, together with an explicit byte
length where the code consults it.  A `Uint8Array` view (`this.elements`)
is a `(byteOffset, byteLength)` window into that buffer; a typed array is
a `(kind, byteOffset, length)` window.  Machine values are handled at the
bit-pattern level: an element of byte width `w` occupies `w` consecutive
bytes, little-endian, and signed kinds decode their pattern by two's
complement.
-/

namespace Rune

/-- The closed enumeration of element kinds, exactly the keys of the
`typedArrays` dispatch table in `Tensor.ts`. -/
inductive ElementKind : Type
  | f64 | i64 | u64 | f32 | i32 | u32 | u16 | i16 | u8 | i8
  deriving DecidableEq, Repr

/-- The string tag of a kind, as it appears in the TypeScript source. -/
def ElementKind.toStr : ElementKind → String
  | .f64 => "f64"
  | .i64 => "i64"
  | .u64 => "u64"
  | .f32 => "f32"
  | .i32 => "i32"
  | .u32 => "u32"
  | .u16 => "u16"
  | .i16 => "i16"
  | .u8 => "u8"
  | .i8 => "i8"

/-- Modelled from the spec: `Shape.ByteSize` is defined in `Shape.ts`,
which is not part of the provided sources; the spec fixes each kind's
byte width ("each mapped to a fixed byte width (8,4,8,4,2,1,8,4,2,1
respectively matching the kind's numeric size)"). -/
def byteSize : ElementKind → Nat
  | .f64 => 8
  | .i64 => 8
  | .u64 => 8
  | .f32 => 4
  | .i32 => 4
  | .u32 => 4
  | .u16 => 2
  | .i16 => 2
  | .u8 => 1
  | .i8 => 1

/-- The shape descriptor consumed by `Tensor`: an element-kind tag plus an
ordered sequence of dimension sizes.  Modelled from the spec: `Shape.ts`
is not part of the provided sources; the spec describes the descriptor as
holding "an element-kind tag (one of a fixed enumeration of numeric
kinds) and an ordered sequence of non-negative dimension sizes". -/
structure Shape where
  type : ElementKind
  dimensions : List Nat
  deriving DecidableEq, Repr

/-- Modelled from the spec: `Shape.toString()` is defined in the missing
`Shape.ts`; the spec calls its output the "<shape-description>" of the
error message and requires (§8, concrete scenario) that for a shape of
kind `f32` the message contain `"f32"`, so the description names the
declared kind followed by the dimension list. -/
def Shape.describe (s : Shape) : String :=
  s.type.toStr ++ "[" ++ String.intercalate ", " (s.dimensions.map toString) ++ "]"

/-- The two runtime failures reachable from `asTypedArray`: the explicit
`throw new Error(...)` on a kind mismatch, and the `RangeError` the
built-in typed-array constructor raises on a bad offset or length. -/
inductive JsError : Type
  | typeMismatch (msg : String)
  | rangeError (msg : String)
  deriving DecidableEq, Repr

/-- The message built by the `throw` in `Tensor.asTypedArray`:
``Attempting to interpret a ${this.shape.toString()} as a ${elementType} tensor``. -/
def mismatchMsg (s : Shape) (elementType : ElementKind) : String :=
  "Attempting to interpret a " ++ s.describe ++ " as a " ++ elementType.toStr ++ " tensor"

/-- A typed array view: the result of `new constructor(buffer, byteOffset, length)`,
a window of `length` elements of kind `kind` starting `byteOffset` bytes
into the shared buffer. -/
structure TypedView where
  kind : ElementKind
  byteOffset : Nat
  length : Nat
  deriving DecidableEq, Repr

/-- The ECMAScript `TypedArray(buffer, byteOffset, length)` constructor
called on the last line of `asTypedArray`: it throws a `RangeError` when
`byteOffset` is not a multiple of the element size, or when the requested
window `byteOffset + length * elementSize` overruns the buffer; otherwise
it returns a view sharing the buffer.  (`ToIndex` applied to the `length`
argument truncates a fractional number toward zero; the caller below
passes the already-truncated `Nat` quotient.) -/
def mkTypedArray (bufLen : Nat) (k : ElementKind) (byteOffset len : Nat) :
    Except JsError TypedView :=
  if byteOffset % byteSize k ≠ 0 then
    .error (.rangeError ("start offset of typed array should be a multiple of " ++
      toString (byteSize k)))
  else if bufLen < byteOffset + len * byteSize k then
    .error (.rangeError "Invalid typed array length")
  else
    .ok { kind := k, byteOffset := byteOffset, length := len }

/-- The `Tensor` class: a shape descriptor plus the `elements : Uint8Array`
view, the latter represented by its `byteOffset` and `byteLength` within
its backing `ArrayBuffer` (whose contents are threaded separately as
state). -/
structure Tensor where
  shape : Shape
  byteOffset : Nat
  byteLength : Nat
  deriving DecidableEq, Repr

/-- The `Uint8Array` invariant relating `elements` to its backing buffer:
the window lies inside the buffer.  Every `Uint8Array` the JavaScript
runtime can hand to the constructor satisfies this. -/
def Tensor.validFor (t : Tensor) (bufLen : Nat) : Prop :=
  t.byteOffset + t.byteLength ≤ bufLen

/-- `Tensor.asTypedArray`, line for line: compare the requested kind with
the shape's declared kind and throw the mismatch `Error` if they differ;
otherwise destructure `elements` into `(buffer, byteOffset, byteLength)`,
compute `length = byteLength / Shape.ByteSize[this.shape.type]` (floor,
after `ToIndex` truncation), look up the constructor in `typedArrays`,
and call it. -/
def Tensor.asTypedArray (t : Tensor) (bufLen : Nat) (elementType : ElementKind) :
    Except JsError TypedView :=
  if t.shape.type ≠ elementType then
    .error (.typeMismatch (mismatchMsg t.shape elementType))
  else
    mkTypedArray bufLen elementType t.byteOffset (t.byteLength / byteSize t.shape.type)

/-- Which kinds the typed arrays decode as two's-complement signed values
(`Int8Array`, `Int16Array`, `Int32Array`, `BigInt64Array`). -/
def isSigned : ElementKind → Bool
  | .i8 | .i16 | .i32 | .i64 => true
  | _ => false

/-- The conversion a write through a typed array applies to the incoming
value before storing its bit pattern: `Uint8ClampedArray` (the `"u8"`
entry of `typedArrays`) clamps to `[0, 255]` (`ToUint8Clamp`); every
other kind wraps modulo `2^(8·width)` (`ToInt8/.../ToBigUint64` all keep
exactly the low `8·width` bits).  Kinds `f32`/`f64` are handled at the
bit-pattern level: the value is already a bit pattern and is kept modulo
`2^(8·width)`. -/
def convVal (k : ElementKind) (v : Int) : Nat :=
  match k with
  | .u8 => (max 0 (min 255 v)).toNat
  | _ => (v % ((2 : Int) ^ (8 * byteSize k))).toNat

/-- Decoding a stored bit pattern back into the value a read through the
typed array yields: signed kinds use two's complement, all others return
the pattern itself. -/
def readVal (k : ElementKind) (p : Nat) : Int :=
  if isSigned k ∧ 2 ^ (8 * byteSize k - 1) ≤ p then
    (p : Int) - 2 ^ (8 * byteSize k)
  else
    (p : Int)

/-- The values of kind `k` representable without loss: the two's-complement
range for signed kinds, the `[0, 2^(8·width))` pattern range otherwise. -/
def representable (k : ElementKind) (v : Int) : Prop :=
  if isSigned k then
    -((2 : Int) ^ (8 * byteSize k - 1)) ≤ v ∧ v < 2 ^ (8 * byteSize k - 1)
  else
    0 ≤ v ∧ v < 2 ^ (8 * byteSize k)

/-- Store the low `w` bytes of pattern `v` into the buffer at positions
`pos, pos+1, …, pos+w-1`, little-endian, leaving every other byte
unchanged — the memory effect of one typed-array element write. -/
def writePat (buf : Nat → Nat) (pos : Nat) : Nat → Nat → (Nat → Nat)
  | 0, _ => buf
  | w + 1, v => writePat (Function.update buf pos (v % 256)) (pos + 1) w (v / 256)

/-- Read the `w` bytes at positions `pos, …, pos+w-1` as a little-endian
pattern — the memory reading of one typed-array element. -/
def readPat (buf : Nat → Nat) (pos : Nat) : Nat → Nat
  | 0 => 0
  | w + 1 => buf pos % 256 + 256 * readPat buf (pos + 1) w

/-- An indexed element write through a typed view: `view[i] = v` converts
`v` per the view's kind and stores the resulting pattern into the shared
buffer at the element's byte range. -/
def tset (buf : Nat → Nat) (tv : TypedView) (i : Nat) (v : Int) : Nat → Nat :=
  writePat buf (tv.byteOffset + i * byteSize tv.kind) (byteSize tv.kind) (convVal tv.kind v)

/-- An indexed element read through a typed view: `view[i]` reads the
element's byte range from the shared buffer and decodes it per the view's
kind. -/
def tget (buf : Nat → Nat) (tv : TypedView) (i : Nat) : Int :=
  readVal tv.kind (readPat buf (tv.byteOffset + i * byteSize tv.kind) (byteSize tv.kind))

/-- Reading index `j` of the `elements : Uint8Array` alias of the buffer:
a `Uint8Array` element is exactly the byte at `byteOffset + j`. -/
def Tensor.byteGet (t : Tensor) (buf : Nat → Nat) (j : Nat) : Nat :=
  buf (t.byteOffset + j)

/-- The getter `get elementType(): string { return this.shape.type; }`,
embedded as a state transformer returning the value and the (necessarily
unchanged) receiver. -/
def Tensor.elementTypeGet (t : Tensor) : String × Tensor :=
  (t.shape.type.toStr, t)

/-- The getter `get dimensions(): readonly number[] { return this.shape.dimensions; }`,
embedded as a state transformer returning the value and the (necessarily
unchanged) receiver. -/
def Tensor.dimensionsGet (t : Tensor) : List Nat × Tensor :=
  (t.shape.dimensions, t)

/-- The operations available on a TypeScript `readonly number[]` value —
index reads and the `length` property; the `readonly` modifier removes
every mutator from the interface, which is what `get dimensions()`
returns. -/
inductive ReadonlyArrayOp : Type
  | get (i : Nat)
  | size
  deriving DecidableEq, Repr

/-- Evaluate one readonly-array operation against the backing sequence. -/
def applyReadonlyOp (d : List Nat) : ReadonlyArrayOp → Option Nat
  | .get i => d[i]?
  | .size => some d.length

/-- Run a whole program of readonly-array operations against the backing
sequence, returning each operation's result and the backing sequence the
caller is left with. -/
def runReadonlyOps (d : List Nat) : List ReadonlyArrayOp → List (Option Nat) × List Nat
  | [] => ([], d)
  | op :: ops =>
    let rest := runReadonlyOps d ops
    (applyReadonlyOp d op :: rest.1, rest.2)

/-- Does the character list start with the given pattern? -/
def charsHavePre : List Char → List Char → Bool
  | _, [] => true
  | [], _ :: _ => false
  | a :: as, b :: bs => a == b && charsHavePre as bs

/-- Does the pattern occur as a contiguous segment of the character list? -/
def charsHaveSeg : List Char → List Char → Bool
  | [], pat => pat.isEmpty
  | a :: as, pat => charsHavePre (a :: as) pat || charsHaveSeg as pat

/-- Does the pattern occur as a contiguous substring of the string? -/
def strHasSeg (s pat : String) : Bool :=
  charsHaveSeg s.data pat.data

theorem byteSize_pos (k : ElementKind) : 0 < byteSize k := by
  cases k <;> decide

theorem writePat_frame (w : Nat) : ∀ (buf : Nat → Nat) (pos v j : Nat),
    j < pos ∨ pos + w ≤ j → writePat buf pos w v j = buf j := by
  induction w with
  | zero => intro buf pos v j _; rfl
  | succ w ih =>
    intro buf pos v j h
    show writePat (Function.update buf pos (v % 256)) (pos + 1) w (v / 256) j = buf j
    rw [ih _ _ _ _ (by omega), Function.update_apply, if_neg (by omega)]

theorem writePat_in (w : Nat) : ∀ (buf : Nat → Nat) (pos v j : Nat),
    pos ≤ j → j < pos + w → writePat buf pos w v j = v / 256 ^ (j - pos) % 256 := by
  induction w with
  | zero => intro buf pos v j h1 h2; exact absurd h2 (by omega)
  | succ w ih =>
    intro buf pos v j h1 h2
    show writePat (Function.update buf pos (v % 256)) (pos + 1) w (v / 256) j = _
    rcases Nat.eq_or_lt_of_le h1 with heq | hlt
    · subst heq
      rw [writePat_frame _ _ _ _ _ (by omega), Function.update_apply, if_pos rfl]
      simp
    · rw [ih _ _ _ _ (by omega) (by omega), Nat.div_div_eq_div_mul]
      have hj : j - pos = (j - (pos + 1)) + 1 := by omega
      rw [hj, pow_succ']

theorem readPat_writePat (w : Nat) : ∀ (buf : Nat → Nat) (pos v : Nat),
    readPat (writePat buf pos w v) pos w = v % 256 ^ w := by
  induction w with
  | zero => intro buf pos v; simp [readPat, writePat, Nat.mod_one]
  | succ w ih =>
    intro buf pos v
    show readPat (writePat (Function.update buf pos (v % 256)) (pos + 1) w (v / 256)) pos (w + 1)
        = v % 256 ^ (w + 1)
    simp only [readPat]
    rw [writePat_frame _ _ _ _ _ (by omega), Function.update_apply, if_pos rfl, ih]
    have h4 : (256 : Nat) ^ (w + 1) = 256 * 256 ^ w := by rw [pow_succ']
    have h5 : v % (256 * 256 ^ w) = v % 256 + 256 * (v / 256 % 256 ^ w) := Nat.mod_mul
    rw [h4, h5, Nat.mod_mod_of_dvd v (dvd_refl 256)]

theorem emod_two_pow_toNat_lt (v : Int) (n : Nat) : (v % ((2 : Int) ^ n)).toNat < 2 ^ n := by
  have hpos : (0 : Int) < 2 ^ n := by positivity
  have h1 := Int.emod_nonneg v (ne_of_gt hpos)
  have h2 := Int.emod_lt_of_pos v hpos
  have hc : ((2 ^ n : Nat) : Int) = (2 : Int) ^ n := by push_cast; ring
  omega

theorem convVal_lt (k : ElementKind) (v : Int) : convVal k v < 2 ^ (8 * byteSize k) := by
  cases k <;> simp only [convVal, byteSize] <;>
    first
      | exact emod_two_pow_toNat_lt v _
      | omega

theorem pow256_eq (w : Nat) : (256 : Nat) ^ w = 2 ^ (8 * w) := by
  rw [pow_mul]
  norm_num

theorem convVal_lt_pow256 (k : ElementKind) (v : Int) :
    convVal k v < 256 ^ byteSize k := by
  rw [pow256_eq]
  exact convVal_lt k v

theorem readVal_convVal (k : ElementKind) (v : Int) (h : representable k v) :
    readVal k (convVal k v) = v := by
  cases k <;>
    simp only [representable, isSigned, byteSize, convVal, readVal] at h ⊢ <;>
    norm_num at h ⊢ <;>
    first
      | (split_ifs <;> omega)
      | omega

theorem tget_tset_self (buf : Nat → Nat) (tv : TypedView) (i : Nat) (v : Int) :
    tget (tset buf tv i v) tv i = readVal tv.kind (convVal tv.kind v) := by
  unfold tget tset
  rw [readPat_writePat, Nat.mod_eq_of_lt (convVal_lt_pow256 _ _)]

theorem tget_congr (buf : Nat → Nat) (tv tv2 : TypedView) (i i2 : Nat)
    (hk : tv2.kind = tv.kind)
    (hb : tv2.byteOffset + i2 * byteSize tv2.kind = tv.byteOffset + i * byteSize tv.kind) :
    tget buf tv2 i2 = tget buf tv i := by
  unfold tget
  rw [hk] at hb ⊢
  rw [hb]

theorem mkTypedArray_ok (bufLen : Nat) (k : ElementKind) (off len : Nat)
    (halign : off % byteSize k = 0) (hlen : off + len * byteSize k ≤ bufLen) :
    mkTypedArray bufLen k off len = .ok ⟨k, off, len⟩ := by
  unfold mkTypedArray
  rw [if_neg (by omega), if_neg (by omega)]

theorem asTypedArray_ok (t : Tensor) (bufLen : Nat) (k : ElementKind)
    (hk : t.shape.type = k) (halign : t.byteOffset % byteSize k = 0)
    (hvalid : t.validFor bufLen) :
    t.asTypedArray bufLen k = .ok ⟨k, t.byteOffset, t.byteLength / byteSize k⟩ := by
  unfold Tensor.asTypedArray
  rw [if_neg (by simp [hk]), hk]
  refine mkTypedArray_ok bufLen k _ _ halign ?_
  have hd := Nat.div_mul_le_self t.byteLength (byteSize k)
  unfold Tensor.validFor at hvalid
  omega

theorem asTypedArray_ok_kind (t : Tensor) (bufLen : Nat) (k : ElementKind) (tv : TypedView)
    (h : t.asTypedArray bufLen k = .ok tv) : tv.kind = k := by
  unfold Tensor.asTypedArray mkTypedArray at h
  split_ifs at h
  · injection h with h2
    rw [← h2]

theorem strData_app (a b : String) : (a ++ b).data = a.data ++ b.data := by
  cases a
  cases b
  rfl

theorem charsHaveSeg_nil (s : List Char) : charsHaveSeg s [] = true := by
  cases s <;> simp [charsHaveSeg, charsHavePre, List.isEmpty]

theorem charsHavePre_append (pat ys : List Char) : charsHavePre (pat ++ ys) pat = true := by
  induction pat with
  | nil => simp [charsHavePre]
  | cons b bs ih => simp [charsHavePre, ih]

theorem charsHaveSeg_self_append (pat ys : List Char) : charsHaveSeg (pat ++ ys) pat = true := by
  cases pat with
  | nil => exact charsHaveSeg_nil ys
  | cons p ps =>
    have h := charsHavePre_append (p :: ps) ys
    simp only [List.cons_append] at h
    simp [charsHaveSeg, h]

theorem charsHaveSeg_append_left (xs : List Char) {s pat : List Char}
    (h : charsHaveSeg s pat = true) : charsHaveSeg (xs ++ s) pat = true := by
  induction xs with
  | nil => exact h
  | cons x xs ih => simp [charsHaveSeg, ih]

theorem strHasSeg_mismatch_declared (s : Shape) (k2 : ElementKind) :
    strHasSeg (mismatchMsg s k2) s.type.toStr = true := by
  unfold strHasSeg mismatchMsg Shape.describe
  simp only [strData_app, List.append_assoc]
  exact charsHaveSeg_append_left _ (charsHaveSeg_self_append _ _)

theorem strHasSeg_mismatch_requested (s : Shape) (k2 : ElementKind) :
    strHasSeg (mismatchMsg s k2) k2.toStr = true := by
  unfold strHasSeg mismatchMsg Shape.describe
  simp only [strData_app, List.append_assoc]
  exact charsHaveSeg_append_left _ (charsHaveSeg_append_left _
    (charsHaveSeg_append_left _ (charsHaveSeg_append_left _
      (charsHaveSeg_append_left _ (charsHaveSeg_append_left _
        (charsHaveSeg_self_append _ _))))))

theorem runReadonlyOps_state (d : List Nat) (ops : List ReadonlyArrayOp) :
    (runReadonlyOps d ops).2 = d := by
  induction ops with
  | nil => rfl
  | cons op ops ih => simp [runReadonlyOps, ih]

/-- C1: for every tensor view with declared kind `k1` and every requested
kind `k2 ≠ k1`, `asTypedArray` fails with the type-mismatch error, for
every backing buffer length/offset (neither of which the check consults),
including when the two kinds have equal byte widths. -/
theorem C1_mismatch_rejection (t : Tensor) (bufLen : Nat) (k2 : ElementKind)
    (h : t.shape.type ≠ k2) :
    t.asTypedArray bufLen k2 = .error (.typeMismatch (mismatchMsg t.shape k2)) := by
  unfold Tensor.asTypedArray
  rw [if_pos h]

/-- C1 witness: a view declared `i32` interpreted as `u32` — two kinds of
equal byte width (4 = 4) — fails with the type-mismatch error. -/
theorem C1_witness :
    byteSize ElementKind.i32 = byteSize ElementKind.u32 ∧
    (Tensor.mk ⟨.i32, [2]⟩ 0 8).shape.type ≠ ElementKind.u32 ∧
    (Tensor.mk ⟨.i32, [2]⟩ 0 8).asTypedArray 8 .u32 =
      .error (.typeMismatch (mismatchMsg ⟨.i32, [2]⟩ .u32)) :=
  ⟨rfl, by decide, C1_mismatch_rejection (Tensor.mk ⟨.i32, [2]⟩ 0 8) 8 .u32 (by decide)⟩

/-- C2: for every kind `k` and every buffer whose byte length is an exact
multiple of `byteSize k`, a tensor declared `k` over the whole buffer
interpreted as `k` succeeds with element count `byteLength / byteSize k`
(and that quotient is exact). -/
theorem C2_exact_division_roundtrip (k : ElementKind) (dims : List Nat) (blen : Nat)
    (h : byteSize k ∣ blen) :
    (Tensor.mk ⟨k, dims⟩ 0 blen).asTypedArray blen k = .ok ⟨k, 0, blen / byteSize k⟩ ∧
    blen / byteSize k * byteSize k = blen :=
  ⟨asTypedArray_ok (Tensor.mk ⟨k, dims⟩ 0 blen) blen k rfl (Nat.zero_mod _)
      (by norm_num [Tensor.validFor]),
    Nat.div_mul_cancel h⟩

/-- C2 witness: 24 bytes declared `f32` interpreted as `f32` give 6 elements. -/
theorem C2_witness :
    byteSize ElementKind.f32 ∣ 24 ∧
    (Tensor.mk ⟨.f32, [2, 3]⟩ 0 24).asTypedArray 24 .f32 = .ok ⟨.f32, 0, 6⟩ :=
  ⟨by decide, (C2_exact_division_roundtrip .f32 [2, 3] 24 (by decide)).1⟩

/-- C3 counterexample: a view whose declared kind `f64` equals the requested
kind but whose `elements` window starts at byte offset 1 of its buffer: the
typed-array constructor raises a `RangeError`, so the matching-kind call
does not succeed for every byte offset. -/
theorem C3_counterexample :
    (Tensor.mk ⟨.f64, [1]⟩ 1 8).shape.type = ElementKind.f64 ∧
    (Tensor.mk ⟨.f64, [1]⟩ 1 8).validFor 9 ∧
    ∃ msg, (Tensor.mk ⟨.f64, [1]⟩ 1 8).asTypedArray 9 .f64 = .error (.rangeError msg) :=
  ⟨rfl, by norm_num [Tensor.validFor], _, rfl⟩

/-- C3 (amended): whenever the requested kind equals the declared kind and
the view's byte offset within its buffer is a multiple of the kind's byte
width, `asTypedArray` succeeds for every buffer length admitting the view;
the kind mismatch and the misaligned-offset `RangeError` are the only
error conditions. -/
theorem C3_matching_kind_succeeds_when_aligned (t : Tensor) (bufLen : Nat)
    (k : ElementKind) (hk : t.shape.type = k)
    (halign : t.byteOffset % byteSize k = 0) (hvalid : t.validFor bufLen) :
    ∃ tv : TypedView, t.asTypedArray bufLen k = .ok tv :=
  ⟨_, asTypedArray_ok t bufLen k hk halign hvalid⟩

/-- C3 witness: an aligned `f64` view 8 bytes into a 24-byte buffer succeeds. -/
theorem C3_witness :
    (Tensor.mk ⟨.f64, []⟩ 8 16).shape.type = ElementKind.f64 ∧
    8 % byteSize ElementKind.f64 = 0 ∧
    (Tensor.mk ⟨.f64, []⟩ 8 16).validFor 24 ∧
    ∃ tv, (Tensor.mk ⟨.f64, []⟩ 8 16).asTypedArray 24 .f64 = .ok tv :=
  ⟨rfl, by decide, by norm_num [Tensor.validFor],
    C3_matching_kind_succeeds_when_aligned (Tensor.mk ⟨.f64, []⟩ 8 16) 24 .f64 rfl
      (by decide) (by norm_num [Tensor.validFor])⟩

/-- C4 counterexample: declared kind `f32` equals the requested kind and the
byte length 6 is not a multiple of 4, but the view's byte offset 2 is
misaligned, so `asTypedArray` fails with a `RangeError` instead of
truncating — the claim's "does not fail" does not hold for every view. -/
theorem C4_counterexample :
    (Tensor.mk ⟨.f32, [1]⟩ 2 6).shape.type = ElementKind.f32 ∧
    ¬ byteSize ElementKind.f32 ∣ 6 ∧
    (Tensor.mk ⟨.f32, [1]⟩ 2 6).validFor 8 ∧
    ∃ msg, (Tensor.mk ⟨.f32, [1]⟩ 2 6).asTypedArray 8 .f32 = .error (.rangeError msg) :=
  ⟨rfl, by decide, by norm_num [Tensor.validFor], _, rfl⟩

/-- C4 (amended): whenever the requested kind equals the declared kind, the
view's byte offset is a multiple of the kind's byte width, and the byte
length is not an exact multiple of that width, `asTypedArray` does not
fail: the element count is the integer quotient (floor) of the division. -/
theorem C4_truncating_division (t : Tensor) (bufLen : Nat) (k : ElementKind)
    (hk : t.shape.type = k) (halign : t.byteOffset % byteSize k = 0)
    (hvalid : t.validFor bufLen) (_hrem : ¬ byteSize k ∣ t.byteLength) :
    t.asTypedArray bufLen k = .ok ⟨k, t.byteOffset, t.byteLength / byteSize k⟩ :=
  asTypedArray_ok t bufLen k hk halign hvalid

/-- C4 witness: 6 bytes declared `f32`, aligned at offset 0: the call
succeeds and truncates 6 / 4 to 1 element. -/
theorem C4_witness :
    (Tensor.mk ⟨.f32, []⟩ 0 6).shape.type = ElementKind.f32 ∧
    0 % byteSize ElementKind.f32 = 0 ∧
    (Tensor.mk ⟨.f32, []⟩ 0 6).validFor 6 ∧
    ¬ byteSize ElementKind.f32 ∣ 6 ∧
    (Tensor.mk ⟨.f32, []⟩ 0 6).asTypedArray 6 .f32 = .ok ⟨.f32, 0, 1⟩ :=
  ⟨rfl, by decide, by norm_num [Tensor.validFor], by decide,
    C4_truncating_division (Tensor.mk ⟨.f32, []⟩ 0 6) 6 .f32 rfl (by decide)
      (by norm_num [Tensor.validFor]) (by decide)⟩

/-- C5: a view returned by a successful `asTypedArray` call aliases the
buffer zero-copy: writing a representable `v` at an in-range index `i` and
re-reading yields `v`; the write changes no byte outside the element's
byte range (so every other alias of other bytes is untouched); the
element's bytes after the write are exactly the little-endian digits of
the stored pattern (so the write is visible through the raw byte alias);
and any other typed view over the same storage addressing the same bytes
with the same kind reads back `v`. -/
theorem C5_zero_copy_aliasing (t : Tensor) (bufLen : Nat) (k : ElementKind)
    (buf : Nat → Nat) (tv : TypedView) (i : Nat) (v : Int)
    (hok : t.asTypedArray bufLen k = .ok tv)
    (_hi : i < tv.length) (hv : representable k v) :
    tget (tset buf tv i v) tv i = v ∧
    (∀ j, j < tv.byteOffset + i * byteSize tv.kind ∨
        tv.byteOffset + (i + 1) * byteSize tv.kind ≤ j →
        tset buf tv i v j = buf j) ∧
    (∀ j, tv.byteOffset + i * byteSize tv.kind ≤ j →
        j < tv.byteOffset + (i + 1) * byteSize tv.kind →
        tset buf tv i v j =
          convVal tv.kind v / 256 ^ (j - (tv.byteOffset + i * byteSize tv.kind)) % 256) ∧
    (∀ (tv2 : TypedView) (i2 : Nat), tv2.kind = tv.kind →
        tv2.byteOffset + i2 * byteSize tv2.kind = tv.byteOffset + i * byteSize tv.kind →
        tget (tset buf tv i v) tv2 i2 = v) := by
  have hkind : tv.kind = k := asTypedArray_ok_kind t bufLen k tv hok
  have hrt : tget (tset buf tv i v) tv i = v := by
    rw [tget_tset_self, hkind]
    exact readVal_convVal k v hv
  have hm : (i + 1) * byteSize tv.kind = i * byteSize tv.kind + byteSize tv.kind := by ring
  refine ⟨hrt, ?_, ?_, ?_⟩
  · intro j hj
    unfold tset
    exact writePat_frame _ _ _ _ _ (by omega)
  · intro j h1 h2
    unfold tset
    exact writePat_in _ _ _ _ _ h1 (by omega)
  · intro tv2 i2 h1 h2
    rw [tget_congr (tset buf tv i v) tv tv2 i i2 h1 h2]
    exact hrt

/-- C5 witness: a `u16` view over a fresh 4-byte buffer; writing 500 at
index 1 and re-reading yields 500. -/
theorem C5_witness :
    (Tensor.mk ⟨.u16, []⟩ 0 4).asTypedArray 4 .u16 = .ok ⟨.u16, 0, 2⟩ ∧
    1 < (TypedView.mk .u16 0 2).length ∧
    representable .u16 500 ∧
    tget (tset (fun _ => 0) ⟨.u16, 0, 2⟩ 1 500) ⟨.u16, 0, 2⟩ 1 = 500 := by
  have h1 : (Tensor.mk ⟨.u16, []⟩ 0 4).asTypedArray 4 .u16 = .ok ⟨.u16, 0, 2⟩ := rfl
  have h2 : 1 < (TypedView.mk .u16 0 2).length := by norm_num
  have h3 : representable .u16 500 := by norm_num [representable, isSigned, byteSize]
  exact ⟨h1, h2, h3,
    (C5_zero_copy_aliasing (Tensor.mk ⟨.u16, []⟩ 0 4) 4 .u16 (fun _ => 0)
      ⟨.u16, 0, 2⟩ 1 500 h1 h2 h3).1⟩

/-- C6: the mismatch error's message is exactly
`"Attempting to interpret a <shape-description> as a <requested-kind> tensor"`;
it contains the declared kind's string and the requested kind's string,
and in the concrete `f32`-interpreted-as-`i32` scenario it contains both
`"f32"` and `"i32"`. -/
theorem C6_error_carries_both_kinds :
    (∀ (t : Tensor) (bufLen : Nat) (k2 : ElementKind), t.shape.type ≠ k2 →
        t.asTypedArray bufLen k2 =
          .error (.typeMismatch ("Attempting to interpret a " ++ t.shape.describe ++
            " as a " ++ k2.toStr ++ " tensor"))) ∧
    (∀ (s : Shape) (k2 : ElementKind),
        strHasSeg (mismatchMsg s k2) s.type.toStr = true ∧
        strHasSeg (mismatchMsg s k2) k2.toStr = true) ∧
    (Tensor.mk ⟨.f32, [2, 3]⟩ 0 24).asTypedArray 24 .i32 =
      .error (.typeMismatch (mismatchMsg ⟨.f32, [2, 3]⟩ .i32)) ∧
    strHasSeg (mismatchMsg ⟨.f32, [2, 3]⟩ .i32) "f32" = true ∧
    strHasSeg (mismatchMsg ⟨.f32, [2, 3]⟩ .i32) "i32" = true := by
  refine ⟨?_, ?_, rfl, rfl, rfl⟩
  · intro t bufLen k2 h
    unfold Tensor.asTypedArray
    rw [if_pos h]
    rfl
  · intro s k2
    exact ⟨strHasSeg_mismatch_declared s k2, strHasSeg_mismatch_requested s k2⟩

/-- C6 witness: the concrete `f32`-as-`i32` mismatch produces the formatted
message. -/
theorem C6_witness :
    (Tensor.mk ⟨.f32, [2, 3]⟩ 0 24).shape.type ≠ ElementKind.i32 ∧
    (Tensor.mk ⟨.f32, [2, 3]⟩ 0 24).asTypedArray 24 .i32 =
      .error (.typeMismatch ("Attempting to interpret a " ++
        (Shape.mk .f32 [2, 3]).describe ++ " as a " ++
        ElementKind.i32.toStr ++ " tensor")) :=
  ⟨by decide, C6_error_carries_both_kinds.1 (Tensor.mk ⟨.f32, [2, 3]⟩ 0 24) 24 .i32 (by decide)⟩

/-- C7: for every kind `k` and every dimension list, a view declared `k`
over a zero-length buffer interpreted as `k` yields a zero-length typed
view and no error. -/
theorem C7_zero_length_buffer (k : ElementKind) (dims : List Nat) :
    (Tensor.mk ⟨k, dims⟩ 0 0).asTypedArray 0 k = .ok ⟨k, 0, 0⟩ := by
  have h := asTypedArray_ok (Tensor.mk ⟨k, dims⟩ 0 0) 0 k rfl (Nat.zero_mod _)
    (by norm_num [Tensor.validFor])
  simpa using h

/-- C8: the `elementType` and `dimensions` getters are pure: each returns
the receiver unchanged, and a repeated call returns the identical value. -/
theorem C8_accessor_purity (t : Tensor) :
    t.elementTypeGet.2 = t ∧ t.dimensionsGet.2 = t ∧
    t.elementTypeGet.2.elementTypeGet.1 = t.elementTypeGet.1 ∧
    t.dimensionsGet.2.dimensionsGet.1 = t.dimensionsGet.1 :=
  ⟨rfl, rfl, rfl, rfl⟩

/-- C9: the value `dimensions` returns admits only the read operations of a
TypeScript `readonly number[]`; running any program of those operations
leaves the shape descriptor's backing dimension sequence unchanged, and
the getter itself does not mutate the receiver. -/
theorem C9_dimensions_readonly (t : Tensor) (ops : List ReadonlyArrayOp) :
    (runReadonlyOps t.dimensionsGet.1 ops).2 = t.shape.dimensions ∧
    t.dimensionsGet.2 = t :=
  ⟨runReadonlyOps_state _ _, rfl⟩

/-- C10: a `u8` view is backed by `Uint8ClampedArray`, so writes clamp:
storing a value above 255 reads back 255 and a negative value reads back
0, whereas `i8` and `u16` views wrap modulo `2^(8·width)` (writing 300
through `i8` reads back 44, through `u16` reads back 300). -/
theorem C10_u8_clamping (buf : Nat → Nat) (off n i : Nat) (v : Int) :
    (255 < v → tget (tset buf ⟨.u8, off, n⟩ i v) ⟨.u8, off, n⟩ i = 255) ∧
    (v < 0 → tget (tset buf ⟨.u8, off, n⟩ i v) ⟨.u8, off, n⟩ i = 0) ∧
    tget (tset buf ⟨.i8, off, n⟩ i 300) ⟨.i8, off, n⟩ i = 44 ∧
    tget (tset buf ⟨.u16, off, n⟩ i 300) ⟨.u16, off, n⟩ i = 300 := by
  refine ⟨?_, ?_, ?_, ?_⟩
  · intro h
    rw [tget_tset_self]
    show readVal ElementKind.u8 (convVal ElementKind.u8 v) = 255
    simp only [readVal, convVal, isSigned, byteSize]
    norm_num
    omega
  · intro h
    rw [tget_tset_self]
    show readVal ElementKind.u8 (convVal ElementKind.u8 v) = 0
    simp only [readVal, convVal, isSigned, byteSize]
    norm_num
    omega
  · rw [tget_tset_self]
    show readVal ElementKind.i8 (convVal ElementKind.i8 300) = 44
    decide
  · rw [tget_tset_self]
    show readVal ElementKind.u16 (convVal ElementKind.u16 300) = 300
    decide

/-- C10 witness: writing 300 then -7 through a `u8` view reads back 255
then 0. -/
theorem C10_witness :
    ((255 : Int) < 300 ∧
      tget (tset (fun _ => 0) ⟨.u8, 0, 1⟩ 0 300) ⟨.u8, 0, 1⟩ 0 = 255) ∧
    ((-7 : Int) < 0 ∧
      tget (tset (fun _ => 0) ⟨.u8, 0, 1⟩ 0 (-7)) ⟨.u8, 0, 1⟩ 0 = 0) :=
  ⟨⟨by norm_num, (C10_u8_clamping (fun _ => 0) 0 1 0 300).1 (by norm_num)⟩,
    ⟨by norm_num, (C10_u8_clamping (fun _ => 0) 0 1 0 (-7)).2.1 (by norm_num)⟩⟩

end Rune
